import Mathlib

/-!
Verification of the `keyv-hana` storage adapter (`src/index.ts`).

The adapter translates the Keyv key-value contract (get/set/delete/clear,
batch variants, namespace-scoped clearing, keyset-paginated iteration) into
parameterized SQL against a two-column table (`ID` primary key, `VALUE`).
This development shallowly embeds:

  * the LIKE-pattern codec (`escapeLike`, the regex replace on line 211/290
    of the source) together with the SQL LIKE semantics of the backing
    store (`likeMatch`),
  * the table-level semantics of every SQL statement shape the adapter
    issues (SELECT by id, UPSERT, COUNT, DELETE, `IN (...)` variants, and
    the `LIKE ... AND "ID" > ? ORDER BY "ID" LIMIT n` batch query),
  * the connection lifecycle (constructor-triggered init whose failure is
    caught and re-emitted as an `error` event, `_exec` / `_rawExec`,
    `disconnect`), and
  * each public adapter method, including the statement trace it issues.

Machine integers do not occur; ids and values are strings, counts are
naturals, and the iterator limit is an integer (JS numbers restricted to
the integral values the adapter manipulates).
-/

/-- Decidable equality of `Except` results, used to evaluate the embedded
operations on concrete inputs. -/
instance {ε α : Type} [DecidableEq ε] [DecidableEq α] : DecidableEq (Except ε α) := fun
  | .error e, .error f =>
    if h : e = f then .isTrue (by rw [h]) else .isFalse (fun hc => h (by cases hc; rfl))
  | .error _, .ok _ => .isFalse (fun hc => by cases hc)
  | .ok _, .error _ => .isFalse (fun hc => by cases hc)
  | .ok a, .ok b =>
    if h : a = b then .isTrue (by rw [h]) else .isFalse (fun hc => h (by cases hc; rfl))

namespace KeyvHana

/-! ### Pattern codec and SQL LIKE semantics -/

/-- The three characters with special meaning in a SQL LIKE pattern under
`ESCAPE BACKSLASH`: match-any `%`, match-one `_`, and the escape character
itself.  This is the character class of the regex on source lines 211 and
290 (`/[%_\\]/g`). -/
def isLikeSpecial (c : Char) : Bool :=
  c == '%' || c == '_' || c == '\\'

/-- Character-level model of `s.replace(/[%_\\]/g, '\\$&')` (source lines
211 and 290): every LIKE metacharacter is preceded by a backslash. -/
def escapeChars : List Char → List Char
  | [] => []
  | c :: rest =>
    if isLikeSpecial c then '\\' :: c :: escapeChars rest
    else c :: escapeChars rest

/-- String-level escape used when a namespace is embedded into a LIKE
pattern. -/
def escapeLike (s : String) : String :=
  ⟨escapeChars s.data⟩

/-- SQL LIKE matching with escape character backslash, as evaluated by the
backing store for the patterns this adapter issues: `%` matches any
(possibly empty) run of characters, `_` matches exactly one character, a
backslash makes the following character literal, and any other character
matches itself. -/
def likeMatch : List Char → List Char → Bool
  | [], s => s.isEmpty
  | p :: ps, s =>
    if p = '%' then
      (s.tails).any fun s' => likeMatch ps s'
    else if p = '\\' then
      match ps, s with
      | c :: ps', d :: s' => c == d && likeMatch ps' s'
      | _, _ => false
    else if p = '_' then
      match s with
      | _ :: s' => likeMatch ps s'
      | [] => false
    else
      match s with
      | d :: s' => p == d && likeMatch ps s'
      | [] => false

/-- LIKE matching on strings. -/
def likeM (pattern s : String) : Bool :=
  likeMatch pattern.data s.data

/-- `leadsWith p s` holds when the character list `p` starts the character
list `s`; this is the plain-language reading of a namespace-qualified id. -/
def leadsWith : List Char → List Char → Bool
  | [], _ => true
  | _ :: _, [] => false
  | c :: p, d :: s => c == d && leadsWith p s

/-! ### Table state and semantics of the issued SQL statements

The backing table (`"ID" NVARCHAR PRIMARY KEY, "VALUE" NCLOB`) is a finite
list of (id, value) rows; the primary-key invariant is `keysNodup`. -/

/-- A table state: the rows of the backing column table. -/
abbrev Table := List (String × String)

/-- The primary-key invariant enforced by the backing store: row ids are
pairwise distinct. -/
def keysNodup (t : Table) : Prop :=
  (t.map Prod.fst).Nodup

instance (t : Table) : Decidable (keysNodup t) :=
  List.nodupDecidable _

/-- Rows of `SELECT "VALUE" FROM t WHERE "ID" = ?` (source line 181). -/
def selectValueEq (t : Table) (key : String) : List String :=
  (t.filter fun e => e.1 == key).map Prod.snd

/-- Result of `SELECT COUNT(*) FROM t WHERE "ID" = ?` (source lines 197,
267). -/
def countEq (t : Table) (key : String) : Nat :=
  (t.filter fun e => e.1 == key).length

/-- Effect of `UPSERT t ("ID", "VALUE") VALUES (?, ?) WHERE "ID" = ?`
(source lines 192, 242): replace the row with this primary key if present,
insert a fresh row otherwise. -/
def upsertRow (t : Table) (key value : String) : Table :=
  if t.any (fun e => e.1 == key) then
    t.map fun e => if e.1 == key then (key, value) else e
  else
    t ++ [(key, value)]

/-- Effect of `DELETE FROM t WHERE "ID" = ?` (source line 204). -/
def deleteEq (t : Table) (key : String) : Table :=
  t.filter fun e => !(e.1 == key)

/-- Effect of `DELETE FROM t WHERE "ID" LIKE ? ESCAPE BACKSLASH` (source
line 213). -/
def deleteLike (t : Table) (pattern : String) : Table :=
  t.filter fun e => !(likeM pattern e.1)

/-- Rows of `SELECT "ID", "VALUE" FROM t WHERE "ID" IN (...)` (source
line 227). -/
def selectIn (t : Table) (keys : List String) : Table :=
  t.filter fun e => keys.contains e.1

/-- Result of `SELECT COUNT(*) FROM t WHERE "ID" IN (...)` (source
line 254). -/
def countIn (t : Table) (keys : List String) : Nat :=
  (selectIn t keys).length

/-- Effect of `DELETE FROM t WHERE "ID" IN (...)` (source line 261). -/
def deleteIn (t : Table) (keys : List String) : Table :=
  t.filter fun e => !(keys.contains e.1)

/-- Ids of `SELECT "ID" FROM t WHERE "ID" IN (...)` (source line 278). -/
def selectIdIn (t : Table) (keys : List String) : List String :=
  (selectIn t keys).map Prod.fst

/-- Strict character comparison by code point, the collation the backing
store applies to the `ID` column. -/
def charLt (c d : Char) : Bool :=
  decide (c.toNat < d.toNat)

/-- Strict lexicographic comparison of character lists by code point. -/
def strLtChars : List Char → List Char → Bool
  | [], [] => false
  | [], _ :: _ => true
  | _ :: _, [] => false
  | c :: cs, d :: ds => charLt c d || (c == d && strLtChars cs ds)

/-- The id order used by `ORDER BY "ID"` and the `"ID" > ?` cursor
condition: strict lexicographic order on ids. -/
def strLt (a b : String) : Bool :=
  strLtChars a.data b.data

/-- Reflexive closure of `strLt`. -/
def strLe (a b : String) : Bool :=
  strLt a b || a == b

/-- Stable ordered insert by id, the building block of `ORDER BY "ID"`. -/
def insertById (e : String × String) : Table → Table
  | [] => [e]
  | f :: rest => if strLe e.1 f.1 then e :: f :: rest else f :: insertById e rest

/-- `ORDER BY "ID"` on a row set. -/
def sortById : Table → Table
  | [] => []
  | e :: rest => insertById e (sortById rest)

/-- The `"ID" > ?` keyset cursor condition: absent cursor matches all rows
(first round of the iterator, source line 301), a present cursor keeps only
strictly greater ids (source line 304). -/
def cursorLt : Option String → String → Bool
  | none, _ => true
  | some c, x => strLt c x

/-- Rows of the iterator's batch query
`SELECT "ID", "VALUE" FROM t WHERE "ID" LIKE ? ESCAPE BACKSLASH
 [AND "ID" > ?] ORDER BY "ID" LIMIT limit` (source lines 301 and 304). -/
def selectBatch (t : Table) (pattern : String) (cursor : Option String)
    (limit : Nat) : Table :=
  (sortById (t.filter fun e => likeM pattern e.1 && cursorLt cursor e.1)).take limit

/-- Value stored under a key, if any: the reference lookup used to state
correctness of `get`/`getMany`. -/
def lookupT (t : Table) (key : String) : Option String :=
  (t.find? fun e => e.1 == key).map Prod.snd

/-- Semantics of `new Map(rows).get(key)` (source line 232): when several
rows share an id, the later row wins. -/
def jsMapGet : Table → String → Option String
  | [], _ => none
  | e :: rest, key =>
    match jsMapGet rest key with
    | some v => some v
    | none => if e.1 == key then some e.2 else none

/-! ### The configured iteration limit

Source lines 287-288 compute the batch size as
`Number.parseInt(String(this.opts.iterationLimit), 10) || 10`.
The configured value is a JS value of the adapter's options bag; we model
the values a `number | undefined` field can hold at runtime: an integral
number (stringified as its decimal representation, which JS does for all
integers of magnitude below 1e21), the number `NaN`, `undefined`, or — past
the type checker — an arbitrary string. -/

/-- A runtime value of the `iterationLimit` option. -/
inductive LimitConfig
  | num (i : Int)
  | nan
  | undef
  | str (s : String)
deriving DecidableEq

/-- `String(v)` on a `LimitConfig`. -/
def jsString : LimitConfig → String
  | .num i => toString i
  | .nan => "NaN"
  | .undef => "undefined"
  | .str s => s

/-- Whitespace skipped by `Number.parseInt`. -/
def isJsSpace (c : Char) : Bool :=
  c == ' ' || c == '\t' || c == '\n' || c == '\r'

/-- Decimal value of the leading digit run, if nonempty. -/
def digitsVal? (cs : List Char) : Option Nat :=
  let ds := cs.takeWhile Char.isDigit
  if ds.isEmpty then none
  else some (ds.foldl (fun acc c => 10 * acc + (c.toNat - 48)) 0)

/-- `Number.parseInt(s, 10)`: skip leading whitespace, read an optional
sign and then a maximal run of decimal digits; `none` models `NaN`. -/
def parseIntJs (s : String) : Option Int :=
  match s.data.dropWhile isJsSpace with
  | '-' :: rest => (digitsVal? rest).map fun n => -(n : Int)
  | '+' :: rest => (digitsVal? rest).map fun n => (n : Int)
  | rest => (digitsVal? rest).map fun n => (n : Int)

/-- The iterator batch size (source lines 287-288):
`Number.parseInt(String(cfg), 10) || 10` — the parse result unless it is
`NaN` or `0`, in which case the default `10`. -/
def effectiveLimit (cfg : LimitConfig) : Int :=
  match parseIntJs (jsString cfg) with
  | none => 10
  | some n => if n = 0 then 10 else n

/-! ### Connection lifecycle and the execution gateway -/

/-- The adapter's error taxonomy. -/
inductive HanaError
  /-- Session establishment failed during `_init` (bad credentials,
  unreachable host). -/
  | connectError
  /-- `CREATE COLUMN TABLE` failed during `_init` with a code other than
  288. -/
  | provisionError
  /-- `new Error('Connection not established')` thrown by `_rawExec` when
  the connection handle has been cleared (source line 150). -/
  | notConnected
  /-- Driver-level failure: `conn.exec` on a session that was created but
  never successfully connected. -/
  | execFailed
deriving DecidableEq

/-- The driver session handle: whether `connect` succeeded, and the table
it reaches. -/
structure Conn where
  connected : Bool
  table : Table
deriving DecidableEq

/-- Adapter state: the `_conn` handle, the settled value of the `_ready`
promise, the `error` events emitted so far, whether an `error` listener is
attached (Keyv attaches one to every store), the `namespace` field set by
the host, and the configured `iterationLimit`. -/
structure Adapter where
  conn : Option Conn
  ready : Except HanaError Unit
  emitted : List HanaError
  hasErrorListener : Bool
  nspace : Option String
  iterationLimit : LimitConfig
deriving DecidableEq

/-- Environment oracle for the one-time `_init` sequence. -/
inductive InitOutcome
  /-- `connect` calls back with an error. -/
  | connectFail
  /-- `connect` succeeds and, if attempted, so does `CREATE COLUMN TABLE`. -/
  | ok
  /-- `connect` succeeds; `CREATE COLUMN TABLE` fails with code 288
  ("cannot use duplicate table name"), which `_init` swallows. -/
  | tableExists
  /-- `connect` succeeds; `CREATE COLUMN TABLE` fails with a code other
  than 288, and `_init` rethrows. -/
  | provisionFail

/-- `_init` (source lines 92-139): create the session handle, connect,
then (when `createTable` is not `false`) provision the table, treating
error 288 as success.  Returns the promise outcome and the `_conn` field
left behind — note the handle is assigned before `connect`, so it is set
even when `_init` fails.  `t0` is the table state the session reaches. -/
def runInit (createTable : Bool) (o : InitOutcome) (t0 : Table) :
    Except HanaError Unit × Option Conn :=
  match o with
  | .connectFail => (.error .connectError, some ⟨false, t0⟩)
  | .ok => (.ok (), some ⟨true, t0⟩)
  | .tableExists => (.ok (), some ⟨true, t0⟩)
  | .provisionFail =>
    if createTable then (.error .provisionError, some ⟨true, t0⟩)
    else (.ok (), some ⟨true, t0⟩)

/-- The constructor (source lines 66-85).  Line 82 stores
`this._init().catch(error => this.emit('error', error))` into `_ready`:
when `_init` rejects, the `catch` handler runs `emit`.  With an `error`
listener attached, `emit` returns normally and the `catch` handler
fulfills `_ready`; with no listener, `EventEmitter.emit('error', e)`
throws `e`, so the promise produced by `catch` rejects with `e`. -/
def mkAdapter (createTable : Bool) (o : InitOutcome) (t0 : Table)
    (hasListener : Bool) (ns : Option String) (cfg : LimitConfig) : Adapter :=
  match runInit createTable o t0 with
  | (.ok _, c) =>
    { conn := c, ready := .ok (), emitted := [], hasErrorListener := hasListener,
      nspace := ns, iterationLimit := cfg }
  | (.error e, c) =>
    if hasListener then
      { conn := c, ready := .ok (), emitted := [e], hasErrorListener := hasListener,
        nspace := ns, iterationLimit := cfg }
    else
      { conn := c, ready := .error e, emitted := [], hasErrorListener := hasListener,
        nspace := ns, iterationLimit := cfg }

/-- A successfully initialised, connected adapter over table `t` — the
state reached by the happy construction path. -/
def connAdapter (t : Table) (ns : Option String) (cfg : LimitConfig) : Adapter :=
  { conn := some ⟨true, t⟩, ready := .ok (), emitted := [],
    hasErrorListener := true, nspace := ns, iterationLimit := cfg }

/-- The table the adapter's session reaches (empty when disconnected). -/
def tableOf (a : Adapter) : Table :=
  match a.conn with
  | some c => c.table
  | none => []

/-- `_exec` followed by `_rawExec` (source lines 147-176): await `_ready`
(propagating a rejection), then reject with `Connection not established`
when the handle is cleared, forward to the session otherwise; `exec` on a
session whose `connect` never succeeded fails at the driver level. -/
def execTable {α : Type} (a : Adapter) (f : Table → α × Table) :
    Except HanaError α × Adapter :=
  match a.ready with
  | .error e => (.error e, a)
  | .ok _ =>
    match a.conn with
    | none => (.error .notConnected, a)
    | some c =>
      if c.connected then
        let r := f c.table
        (.ok r.1, { a with conn := some ⟨true, r.2⟩ })
      else
        (.error .execFailed, a)

/-- `disconnect` (source lines 330-343): close the session (assumed to
succeed) and clear the handle; no-op when the handle is already gone. -/
def disconnect (a : Adapter) : Except HanaError Unit × Adapter :=
  match a.conn with
  | none => (.ok (), a)
  | some _ => (.ok (), { a with conn := none })

/-! ### The public operations

Each operation returns its result, the adapter state left behind, and the
trace of SQL statements it handed to `_exec` (empty-input fast paths issue
none). -/

/-- Shapes of the SQL statements the adapter issues. -/
inductive Stmt
  | selectValueEq (key : String)
  | upsertStmt (key value : String)
  | countEqStmt (key : String)
  | deleteEqStmt (key : String)
  | deleteLikeStmt (pattern : String)
  | selectManyIn (keys : List String)
  | countInStmt (keys : List String)
  | deleteInStmt (keys : List String)
  | selectIdsIn (keys : List String)
  | batchStmt (pattern : String) (cursor : Option String) (limit : Int)
deriving DecidableEq

/-- `get` (source lines 180-189): select by id, `undefined` on an empty
row set, the first row's value otherwise. -/
def get (a : Adapter) (key : String) :
    Except HanaError (Option String) × Adapter × List Stmt :=
  match execTable a fun t => (selectValueEq t key, t) with
  | (.error e, a') => (.error e, a', [Stmt.selectValueEq key])
  | (.ok rows, a') => (.ok rows.head?, a', [Stmt.selectValueEq key])

/-- `set` (source lines 191-194): a single UPSERT, no existence check. -/
def set (a : Adapter) (key value : String) :
    Except HanaError Unit × Adapter × List Stmt :=
  match execTable a fun t => ((), upsertRow t key value) with
  | (.error e, a') => (.error e, a', [Stmt.upsertStmt key value])
  | (.ok _, a') => (.ok (), a', [Stmt.upsertStmt key value])

/-- `delete` (source lines 196-207): COUNT first; zero count returns
`false` without a DELETE; otherwise DELETE and return `true`. -/
def delete (a : Adapter) (key : String) :
    Except HanaError Bool × Adapter × List Stmt :=
  match execTable a fun t => (countEq t key, t) with
  | (.error e, a') => (.error e, a', [Stmt.countEqStmt key])
  | (.ok cnt, a') =>
    if cnt = 0 then (.ok false, a', [Stmt.countEqStmt key])
    else
      match execTable a' fun t => ((), deleteEq t key) with
      | (.error e, a'') =>
        (.error e, a'', [Stmt.countEqStmt key, Stmt.deleteEqStmt key])
      | (.ok _, a'') =>
        (.ok true, a'', [Stmt.countEqStmt key, Stmt.deleteEqStmt key])

/-- LIKE pattern of `clear` (source lines 210-212): the JS conditional
`this.namespace ? escaped : PERCENT` treats both an absent and an empty
namespace as falsy. -/
def clearPattern (ns : Option String) : String :=
  match ns with
  | some s => if s = "" then "%" else escapeLike s ++ ":%"
  | none => "%"

/-- `clear` (source lines 209-215): DELETE by the namespace LIKE
pattern. -/
def clear (a : Adapter) : Except HanaError Unit × Adapter × List Stmt :=
  let pattern := clearPattern a.nspace
  match execTable a fun t => ((), deleteLike t pattern) with
  | (.error e, a') => (.error e, a', [Stmt.deleteLikeStmt pattern])
  | (.ok _, a') => (.ok (), a', [Stmt.deleteLikeStmt pattern])

/-- `getMany` (source lines 219-237): empty input short-circuits; one
`IN (...)` select, then re-projection through a JS `Map` in input order,
missing keys becoming `undefined`. -/
def getMany (a : Adapter) (keys : List String) :
    Except HanaError (List (Option String)) × Adapter × List Stmt :=
  if keys.isEmpty then (.ok [], a, [])
  else
    match execTable a fun t => (selectIn t keys, t) with
    | (.error e, a') => (.error e, a', [Stmt.selectManyIn keys])
    | (.ok rows, a') =>
      (.ok (keys.map fun k => jsMapGet rows k), a', [Stmt.selectManyIn keys])

/-- `setMany` (source lines 239-246): one UPSERT per entry, sequentially;
a failure stops the loop with earlier entries committed. -/
def setMany (a : Adapter) : List (String × String) →
    Except HanaError Unit × Adapter × List Stmt
  | [] => (.ok (), a, [])
  | (k, v) :: rest =>
    match execTable a fun t => ((), upsertRow t k v) with
    | (.error e, a') => (.error e, a', [Stmt.upsertStmt k v])
    | (.ok _, a') =>
      match setMany a' rest with
      | (r, a'', tr) => (r, a'', Stmt.upsertStmt k v :: tr)

/-- `deleteMany` (source lines 248-264): empty input returns `false`
without SQL; otherwise COUNT over the key set, returning `false` on zero,
else one blind `DELETE ... IN (...)` and `true`. -/
def deleteMany (a : Adapter) (keys : List String) :
    Except HanaError Bool × Adapter × List Stmt :=
  if keys.isEmpty then (.ok false, a, [])
  else
    match execTable a fun t => (countIn t keys, t) with
    | (.error e, a') => (.error e, a', [Stmt.countInStmt keys])
    | (.ok cnt, a') =>
      if cnt = 0 then (.ok false, a', [Stmt.countInStmt keys])
      else
        match execTable a' fun t => ((), deleteIn t keys) with
        | (.error e, a'') =>
          (.error e, a'', [Stmt.countInStmt keys, Stmt.deleteInStmt keys])
        | (.ok _, a'') =>
          (.ok true, a'', [Stmt.countInStmt keys, Stmt.deleteInStmt keys])

/-- `has` (source lines 266-270): COUNT by id, `true` on a positive
count. -/
def has (a : Adapter) (key : String) :
    Except HanaError Bool × Adapter × List Stmt :=
  match execTable a fun t => (countEq t key, t) with
  | (.error e, a') => (.error e, a', [Stmt.countEqStmt key])
  | (.ok cnt, a') => (.ok (decide (0 < cnt)), a', [Stmt.countEqStmt key])

/-- `hasMany` (source lines 272-282): empty input short-circuits; one
`SELECT "ID" ... IN (...)`, then membership of each input key in the
returned id set, in input order. -/
def hasMany (a : Adapter) (keys : List String) :
    Except HanaError (List Bool) × Adapter × List Stmt :=
  if keys.isEmpty then (.ok [], a, [])
  else
    match execTable a fun t => (selectIdIn t keys, t) with
    | (.error e, a') => (.error e, a', [Stmt.selectIdsIn keys])
    | (.ok ids, a') =>
      (.ok (keys.map fun k => ids.contains k), a', [Stmt.selectIdsIn keys])

/-- `entries[entries.length - 1].ID` (source line 322): the id of the last
row of a (nonempty) batch. -/
def lastId (l : Table) : String :=
  ((l.getLast?).getD ("", "")).1

/-- The iterator's fetch loop (source lines 296-327), collecting the
yielded (id, value) pairs: fetch a batch (all ids, or ids beyond the
cursor), stop on an empty batch, yield the batch, move the cursor to the
batch's last id, and stop when the batch was shorter than the limit.  The
`while (true)` loop is driven by a fuel parameter; the claims show any
fuel beyond the table size reaches the loop's own exit. -/
def iterLoop (a : Adapter) (pattern : String) (limit : Int) :
    Option String → Nat → Except HanaError (List (String × String)) × List Stmt
  | _, 0 => (.ok [], [])
  | cursor, fuel + 1 =>
    match execTable a fun t => (selectBatch t pattern cursor limit.toNat, t) with
    | (.error e, _) => (.error e, [Stmt.batchStmt pattern cursor limit])
    | (.ok entries, _) =>
      if entries.isEmpty then (.ok [], [Stmt.batchStmt pattern cursor limit])
      else if (entries.length : Int) < limit then
        (.ok entries, [Stmt.batchStmt pattern cursor limit])
      else
        match iterLoop a pattern limit (some (lastId entries)) fuel with
        | (.error e, tr) => (.error e, Stmt.batchStmt pattern cursor limit :: tr)
        | (.ok rest, tr) =>
          (.ok (entries ++ rest), Stmt.batchStmt pattern cursor limit :: tr)

/-- `iterator` (source lines 284-328): compute the batch size from the
configured limit, build the namespace LIKE pattern (an absent or empty
namespace argument yields the bare `%` pattern), and run the fetch loop
from an absent cursor. -/
def iterator (a : Adapter) (ns : Option String) (fuel : Nat) :
    Except HanaError (List (String × String)) × List Stmt :=
  let limit := effectiveLimit a.iterationLimit
  let escapedNamespace :=
    match ns with
    | some s => if s = "" then "" else escapeLike s ++ ":"
    | none => ""
  iterLoop a (escapedNamespace ++ "%") limit none fuel

/-! ### Order lemmas for the id comparison -/

theorem charLt_trans {a b c : Char} (h1 : charLt a b = true)
    (h2 : charLt b c = true) : charLt a c = true := by
  simp only [charLt, decide_eq_true_eq] at *
  omega

theorem charLt_asymm {a b : Char} (h1 : charLt a b = true)
    (h2 : charLt b a = true) : False := by
  simp only [charLt, decide_eq_true_eq] at *
  omega

theorem char_trichotomy (a b : Char) :
    charLt a b = true ∨ a = b ∨ charLt b a = true := by
  simp only [charLt, decide_eq_true_eq]
  rcases Nat.lt_trichotomy a.toNat b.toNat with h | h | h
  · exact Or.inl h
  · exact Or.inr (Or.inl (Char.ext (UInt32.toNat.inj h)))
  · exact Or.inr (Or.inr h)

theorem strLtChars_trans :
    ∀ {a b c : List Char}, strLtChars a b = true → strLtChars b c = true →
      strLtChars a c = true
  | [], [], _, h1, _ => by simp [strLtChars] at h1
  | [], _ :: _, [], _, h2 => by simp [strLtChars] at h2
  | [], _ :: _, _ :: _, _, _ => by simp [strLtChars]
  | _ :: _, [], _, h1, _ => by simp [strLtChars] at h1
  | _ :: _, _ :: _, [], _, h2 => by simp [strLtChars] at h2
  | x :: xs, y :: ys, z :: zs, h1, h2 => by
    simp only [strLtChars, Bool.or_eq_true, Bool.and_eq_true, beq_iff_eq] at *
    rcases h1 with h1 | ⟨rfl, h1⟩
    · rcases h2 with h2 | ⟨rfl, _⟩
      · exact Or.inl (charLt_trans h1 h2)
      · exact Or.inl h1
    · rcases h2 with h2 | ⟨rfl, h2⟩
      · exact Or.inl h2
      · exact Or.inr ⟨rfl, strLtChars_trans h1 h2⟩

theorem strLtChars_asymm :
    ∀ {a b : List Char}, strLtChars a b = true → strLtChars b a = true → False
  | [], [], h1, _ => by simp [strLtChars] at h1
  | [], _ :: _, _, h2 => by simp [strLtChars] at h2
  | _ :: _, [], h1, _ => by simp [strLtChars] at h1
  | x :: xs, y :: ys, h1, h2 => by
    simp only [strLtChars, Bool.or_eq_true, Bool.and_eq_true, beq_iff_eq] at *
    rcases h1 with h1 | ⟨rfl, h1⟩
    · rcases h2 with h2 | ⟨rfl, _⟩
      · exact charLt_asymm h1 h2
      · exact charLt_asymm h1 h1
    · rcases h2 with h2 | ⟨_, h2⟩
      · exact charLt_asymm h2 h2
      · exact strLtChars_asymm h1 h2

theorem strLtChars_trichotomy :
    ∀ (a b : List Char), strLtChars a b = true ∨ a = b ∨ strLtChars b a = true
  | [], [] => Or.inr (Or.inl rfl)
  | [], _ :: _ => by simp [strLtChars]
  | _ :: _, [] => by simp [strLtChars]
  | x :: xs, y :: ys => by
    simp only [strLtChars, Bool.or_eq_true, Bool.and_eq_true, beq_iff_eq]
    rcases char_trichotomy x y with h | rfl | h
    · exact Or.inl (Or.inl h)
    · rcases strLtChars_trichotomy xs ys with h | rfl | h
      · exact Or.inl (Or.inr ⟨rfl, h⟩)
      · exact Or.inr (Or.inl rfl)
      · exact Or.inr (Or.inr (Or.inr ⟨rfl, h⟩))
    · exact Or.inr (Or.inr (Or.inl h))

theorem string_data_eq : ∀ {a b : String}, a.data = b.data → a = b
  | ⟨_⟩, ⟨_⟩, h => congrArg String.mk h

theorem strLt_trans {a b c : String} (h1 : strLt a b = true)
    (h2 : strLt b c = true) : strLt a c = true :=
  strLtChars_trans h1 h2

theorem strLt_asymm {a b : String} (h1 : strLt a b = true)
    (h2 : strLt b a = true) : False :=
  strLtChars_asymm h1 h2

theorem strLt_irrefl (a : String) : strLt a a = true → False :=
  fun h => strLtChars_asymm h h

theorem strLt_trichotomy (a b : String) :
    strLt a b = true ∨ a = b ∨ strLt b a = true := by
  rcases strLtChars_trichotomy a.data b.data with h | h | h
  · exact Or.inl h
  · exact Or.inr (Or.inl (string_data_eq h))
  · exact Or.inr (Or.inr h)

theorem strLe_total (a b : String) : strLe a b = true ∨ strLe b a = true := by
  simp only [strLe, Bool.or_eq_true, beq_iff_eq]
  rcases strLt_trichotomy a b with h | h | h
  · exact Or.inl (Or.inl h)
  · exact Or.inl (Or.inr h)
  · exact Or.inr (Or.inl h)

theorem strLe_trans {a b c : String} (h1 : strLe a b = true)
    (h2 : strLe b c = true) : strLe a c = true := by
  simp only [strLe, Bool.or_eq_true, beq_iff_eq] at *
  rcases h1 with h1 | rfl
  · rcases h2 with h2 | rfl
    · exact Or.inl (strLt_trans h1 h2)
    · exact Or.inl h1
  · exact h2

theorem strLt_of_strLe_of_ne {a b : String} (h : strLe a b = true)
    (hne : a ≠ b) : strLt a b = true := by
  simp only [strLe, Bool.or_eq_true, beq_iff_eq] at h
  rcases h with h | rfl
  · exact h
  · exact absurd rfl hne

theorem not_strLt_of_strLt {a b : String} (h : strLt a b = true) :
    strLt b a = false := by
  cases hc : strLt b a
  · rfl
  · exact absurd (strLt_asymm h hc) (fun f => f)

/-! ### `ORDER BY "ID"` lemmas -/

theorem insertById_perm (e : String × String) :
    ∀ (l : Table), (insertById e l).Perm (e :: l)
  | [] => List.Perm.refl _
  | f :: rest => by
    unfold insertById
    by_cases h : strLe e.1 f.1 = true
    · simp [h]
    · simp only [h, if_neg, Bool.not_eq_true]
      exact ((insertById_perm e rest).cons f).trans (List.Perm.swap e f rest)

theorem sortById_perm : ∀ (t : Table), (sortById t).Perm t
  | [] => List.Perm.refl _
  | e :: rest =>
    (insertById_perm e (sortById rest)).trans ((sortById_perm rest).cons e)

theorem mem_insertById {e f : String × String} {l : Table}
    (h : f ∈ insertById e l) : f = e ∨ f ∈ l := by
  have := (insertById_perm e l).mem_iff.mp h
  simpa using this

/-- Pairwise `strLe` on ids, the sortedness produced by `ORDER BY`. -/
def SortedByIds (l : Table) : Prop :=
  l.Pairwise fun e f => strLe e.1 f.1 = true

/-- Pairwise strict `strLt` on ids: sortedness plus primary-key
uniqueness. -/
def StrictByIds (l : Table) : Prop :=
  l.Pairwise fun e f => strLt e.1 f.1 = true

theorem sortedByIds_insertById {e : String × String} {l : Table}
    (h : SortedByIds l) : SortedByIds (insertById e l) := by
  induction l with
  | nil => simp [insertById, SortedByIds]
  | cons f rest ih =>
    rw [SortedByIds, List.pairwise_cons] at h
    by_cases hle : strLe e.1 f.1 = true
    · simp only [insertById]
      rw [if_pos hle, SortedByIds, List.pairwise_cons]
      refine ⟨?_, List.Pairwise.cons h.1 h.2⟩
      intro g hg
      rcases List.mem_cons.mp hg with rfl | hg
      · exact hle
      · exact strLe_trans hle (h.1 g hg)
    · simp only [insertById]
      rw [if_neg hle, SortedByIds, List.pairwise_cons]
      refine ⟨?_, ih h.2⟩
      intro g hg
      rcases mem_insertById hg with heq | hg
      · cases heq
        rcases strLe_total e.1 f.1 with ht | ht
        · exact absurd ht hle
        · exact ht
      · exact h.1 g hg

theorem sortedByIds_sortById : ∀ (t : Table), SortedByIds (sortById t)
  | [] => List.Pairwise.nil
  | _ :: rest => sortedByIds_insertById (sortedByIds_sortById rest)

theorem keysNodup_of_perm {l m : Table} (h : l.Perm m) (hm : keysNodup m) :
    keysNodup l :=
  ((h.map Prod.fst).nodup_iff).mpr hm

theorem strictByIds_of_sorted_nodup {l : Table} (hs : SortedByIds l)
    (hn : keysNodup l) : StrictByIds l := by
  have hnd : l.Pairwise fun e f => e.1 ≠ f.1 := List.pairwise_map.mp hn
  exact (hs.and hnd).imp fun h => strLt_of_strLe_of_ne h.1 h.2

/-! ### LIKE pattern lemmas -/

theorem likeMatch_percent (s : List Char) : likeMatch ['%'] s = true := by
  have h : likeMatch ['%'] s = s.tails.any fun s' => s'.isEmpty := by
    simp [likeMatch]
  rw [h, List.any_eq_true]
  exact ⟨[], (List.mem_tails _ _).mpr List.nil_suffix, rfl⟩

theorem string_append_data (a b : String) : (a ++ b).data = a.data ++ b.data :=
  rfl

theorem leadsWith_append :
    ∀ (p q s : List Char),
      leadsWith (p ++ q) s = (leadsWith p s && leadsWith q (s.drop p.length))
  | [], q, s => by simp [leadsWith]
  | c :: p, q, [] => by simp [leadsWith]
  | c :: p, q, d :: s => by
    simp [leadsWith, Bool.and_assoc, leadsWith_append p q s]

theorem not_special_of_false {c : Char} (h : isLikeSpecial c = false) :
    ¬c = '%' ∧ ¬c = '\\' ∧ ¬c = '_' := by
  simp only [isLikeSpecial] at h
  refine ⟨?_, ?_, ?_⟩ <;> rintro rfl <;> simp at h

/-- Step equation: a pattern headed by an ordinary character consumes one
equal character. -/
theorem likeMatch_cons_literal {c : Char} (ps : List Char) (d : Char)
    (s' : List Char) (h1 : ¬c = '%') (h2 : ¬c = '\\') (h3 : ¬c = '_') :
    likeMatch (c :: ps) (d :: s') = (c == d && likeMatch ps s') := by
  rw [likeMatch.eq_def]
  simp only [if_neg h1, if_neg h2, if_neg h3]

/-- Step equation: an ordinary pattern character never matches the empty
string. -/
theorem likeMatch_cons_literal_nil {c : Char} (ps : List Char)
    (h1 : ¬c = '%') (h2 : ¬c = '\\') (h3 : ¬c = '_') :
    likeMatch (c :: ps) [] = false := by
  rw [likeMatch.eq_def]
  simp only [if_neg h1, if_neg h2, if_neg h3]

theorem likeMatch_escape_append :
    ∀ (p rest s : List Char),
      likeMatch (escapeChars p ++ rest) s =
        (leadsWith p s && likeMatch rest (s.drop p.length))
  | [], rest, s => by simp [escapeChars, leadsWith]
  | c :: p, rest, s => by
    cases hsp : isLikeSpecial c with
    | true =>
      have hE : escapeChars (c :: p) = '\\' :: c :: escapeChars p := by
        simp [escapeChars, hsp]
      cases s with
      | nil => rw [hE]; simp [likeMatch, leadsWith]
      | cons d s' =>
        rw [hE]
        simp [likeMatch, leadsWith, Bool.and_assoc,
          likeMatch_escape_append p rest s']
    | false =>
      obtain ⟨h1, h2, h3⟩ := not_special_of_false hsp
      have hE : escapeChars (c :: p) = c :: escapeChars p := by
        simp [escapeChars, hsp]
      cases s with
      | nil =>
        rw [hE, List.cons_append, likeMatch_cons_literal_nil _ h1 h2 h3]
        simp [leadsWith]
      | cons d s' =>
        rw [hE, List.cons_append, likeMatch_cons_literal _ _ _ h1 h2 h3]
        simp [leadsWith, Bool.and_assoc, likeMatch_escape_append p rest s']

theorem likeMatch_colon_percent (u : List Char) :
    likeMatch [':', '%'] u = leadsWith [':'] u := by
  cases u with
  | nil => rfl
  | cons d u' =>
    simp [likeMatch, leadsWith, likeMatch_percent]

/-- The LIKE pattern built from an escaped namespace matches exactly the
ids that start with the namespace followed by a colon. -/
theorem likeM_nsPattern (ns id : String) :
    likeM (escapeLike ns ++ ":%") id = leadsWith (ns.data ++ [':']) id.data := by
  have hdata : (escapeLike ns ++ ":%").data = escapeChars ns.data ++ [':', '%'] :=
    rfl
  rw [likeM, hdata, likeMatch_escape_append, likeMatch_colon_percent,
    leadsWith_append]

theorem likeM_percent (s : String) : likeM "%" s = true :=
  likeMatch_percent s.data

/-! ### Row-level lemmas about the statement semantics -/

theorem countEq_eq_zero_iff (t : Table) (k : String) :
    countEq t k = 0 ↔ k ∉ t.map Prod.fst := by
  rw [countEq, List.length_eq_zero, List.filter_eq_nil_iff]
  simp only [beq_iff_eq, List.mem_map]
  constructor
  · rintro h ⟨e, he, rfl⟩
    exact h e he rfl
  · rintro h e he rfl
    exact h ⟨e, he, rfl⟩

theorem bool_ne_true {b : Bool} (h : b = false) : ¬b = true := by
  rw [h]
  exact Bool.false_ne_true

theorem countEq_pos_iff (t : Table) (k : String) :
    0 < countEq t k ↔ k ∈ t.map Prod.fst := by
  rw [Nat.pos_iff_ne_zero]
  constructor
  · intro h
    by_contra hc
    exact h ((countEq_eq_zero_iff t k).mpr hc)
  · intro h hz
    exact (countEq_eq_zero_iff t k).mp hz h

theorem countEq_le_one {t : Table} (hn : keysNodup t) (k : String) :
    countEq t k ≤ 1 := by
  induction t with
  | nil => simp [countEq]
  | cons e r ih =>
    rw [keysNodup, List.map_cons, List.nodup_cons] at hn
    cases he : (e.1 == k) with
    | false =>
      rw [countEq, @List.filter_cons_of_neg _ (fun e => e.1 == k) e r
        (bool_ne_true he)]
      exact ih hn.2
    | true =>
      have hk : k ∉ r.map Prod.fst := by
        rw [beq_iff_eq] at he
        rw [← he]
        exact hn.1
      have hz : countEq r k = 0 := (countEq_eq_zero_iff r k).mpr hk
      rw [countEq, @List.filter_cons_of_pos _ (fun e => e.1 == k) e r he,
        List.length_cons]
      rw [countEq] at hz
      omega

/-- Rows with id `k` after an UPSERT of `(k, v)` on a table where `k` is
present: each such row became `(k, v)`. -/
theorem filter_map_upsert (t : Table) (k v : String) :
    ((t.map fun e => if e.1 == k then (k, v) else e).filter fun e => e.1 == k) =
      (t.filter fun e => e.1 == k).map fun _ => (k, v) := by
  induction t with
  | nil => rfl
  | cons e r ih =>
    cases he : (e.1 == k) with
    | true =>
      simp only [List.map_cons, he, if_pos, List.filter_cons, beq_self_eq_true,
        ih]
    | false =>
      simp only [List.map_cons, he, if_neg, Bool.false_eq_true,
        not_false_iff, List.filter_cons, ih]

theorem upsert_get (t : Table) (k v : String) :
    (selectValueEq (upsertRow t k v) k).head? = some v := by
  unfold upsertRow
  cases h : t.any fun e => e.1 == k with
  | false =>
    have hall : ∀ e ∈ t, ¬(e.1 == k) = true := by
      intro e he hc
      have : (t.any fun e => e.1 == k) = true := List.any_eq_true.mpr ⟨e, he, hc⟩
      rw [h] at this
      cases this
    simp only [Bool.false_eq_true, if_neg, not_false_iff, selectValueEq]
    rw [List.filter_append, List.filter_eq_nil_iff.mpr hall]
    simp
  | true =>
    simp only [h, if_pos, selectValueEq]
    rw [filter_map_upsert]
    obtain ⟨e, he, hp⟩ := List.any_eq_true.mp h
    cases hf : t.filter fun e => e.1 == k with
    | nil =>
      have : e ∈ t.filter fun e => e.1 == k := List.mem_filter.mpr ⟨he, hp⟩
      rw [hf] at this
      cases this
    | cons f rest => simp

theorem countEq_upsert {t : Table} (hn : keysNodup t) (k v : String) :
    countEq (upsertRow t k v) k = 1 := by
  unfold upsertRow
  cases h : t.any fun e => e.1 == k with
  | false =>
    have hall : ∀ e ∈ t, ¬(e.1 == k) = true := by
      intro e he hc
      have : (t.any fun e => e.1 == k) = true := List.any_eq_true.mpr ⟨e, he, hc⟩
      rw [h] at this
      cases this
    simp only [Bool.false_eq_true, if_neg, not_false_iff, countEq]
    rw [List.filter_append, List.filter_eq_nil_iff.mpr hall]
    simp
  | true =>
    simp only [h, if_pos, countEq]
    rw [filter_map_upsert, List.length_map]
    obtain ⟨e, he, hp⟩ := List.any_eq_true.mp h
    have hpos : 0 < countEq t k := by
      rw [countEq_pos_iff]
      rw [beq_iff_eq] at hp
      exact List.mem_map.mpr ⟨e, he, hp⟩
    have hle := countEq_le_one hn k
    rw [countEq] at hpos hle
    omega

theorem keysNodup_upsert {t : Table} (hn : keysNodup t) (k v : String) :
    keysNodup (upsertRow t k v) := by
  unfold upsertRow
  cases h : t.any fun e => e.1 == k with
  | true =>
    simp only [h, if_pos, keysNodup, List.map_map]
    have : ∀ e ∈ t,
        (Prod.fst ∘ fun e => if e.1 == k then (k, v) else e) e = e.1 := by
      intro e _
      cases hk : (e.1 == k) with
      | true =>
        have hek := beq_iff_eq.mp hk
        simp [hk, hek]
      | false =>
        have hk' : ¬e.1 = k := by simpa using hk
        simp [hk']
    rw [List.map_congr_left this]
    exact hn
  | false =>
    have hknot : k ∉ t.map Prod.fst := by
      intro hk
      obtain ⟨e, he, hfst⟩ := List.mem_map.mp hk
      have : (t.any fun e => e.1 == k) = true :=
        List.any_eq_true.mpr ⟨e, he, beq_iff_eq.mpr hfst⟩
      rw [h] at this
      cases this
    simp only [Bool.false_eq_true, if_neg, not_false_iff, keysNodup,
      List.map_append]
    rw [List.nodup_append]
    exact ⟨hn, List.nodup_singleton k, by simpa using hknot⟩

theorem selectValueEq_deleteEq (t : Table) (k : String) :
    selectValueEq (deleteEq t k) k = [] := by
  rw [selectValueEq, deleteEq, List.filter_filter]
  simp

theorem countIn_pos_iff (t : Table) (ks : List String) :
    0 < countIn t ks ↔ ∃ k ∈ ks, k ∈ t.map Prod.fst := by
  rw [countIn, selectIn, List.length_pos_iff_exists_mem]
  constructor
  · rintro ⟨e, he⟩
    obtain ⟨het, hek⟩ := List.mem_filter.mp he
    exact ⟨e.1, by simpa using hek, List.mem_map.mpr ⟨e, het, rfl⟩⟩
  · rintro ⟨k, hk, hmem⟩
    obtain ⟨e, he, rfl⟩ := List.mem_map.mp hmem
    exact ⟨e, List.mem_filter.mpr ⟨he, by simpa using hk⟩⟩

/-! ### `getMany` / `hasMany` re-projection lemmas -/

theorem jsMapGet_eq_none {l : Table} {k : String}
    (h : k ∉ l.map Prod.fst) : jsMapGet l k = none := by
  induction l with
  | nil => rfl
  | cons e r ih =>
    rw [List.map_cons, List.mem_cons] at h
    push_neg at h
    rw [jsMapGet, ih h.2]
    simp only [beq_iff_eq]
    rw [if_neg fun hc => h.1 hc.symm]

theorem jsMapGet_eq_lookup {l : Table} (hn : keysNodup l) (k : String) :
    jsMapGet l k = lookupT l k := by
  induction l with
  | nil => rfl
  | cons e r ih =>
    rw [keysNodup, List.map_cons, List.nodup_cons] at hn
    rw [jsMapGet, lookupT, List.find?_cons]
    cases he : (e.1 == k) with
    | true =>
      have hz : jsMapGet r k = none := by
        apply jsMapGet_eq_none
        rw [beq_iff_eq] at he
        rw [← he]
        exact hn.1
      rw [hz]
      simp [he]
    | false =>
      rw [← lookupT]
      rw [← ih hn.2]
      cases hj : jsMapGet r k <;> simp [he]

theorem find?_selectIn (t : Table) (ks : List String) (k : String)
    (hk : ks.contains k = true) :
    ((selectIn t ks).find? fun e => e.1 == k) = t.find? fun e => e.1 == k := by
  induction t with
  | nil => rfl
  | cons e r ih =>
    cases hc : ks.contains e.1 with
    | true =>
      rw [selectIn, @List.filter_cons_of_pos _ (fun e => ks.contains e.1) e r hc]
      cases he : (e.1 == k) with
      | true =>
        rw [@List.find?_cons_of_pos _ (fun e => e.1 == k) e
            (List.filter (fun e => ks.contains e.1) r) he,
          @List.find?_cons_of_pos _ (fun e => e.1 == k) e r he]
      | false =>
        rw [@List.find?_cons_of_neg _ (fun e => e.1 == k) e
            (List.filter (fun e => ks.contains e.1) r) (bool_ne_true he),
          @List.find?_cons_of_neg _ (fun e => e.1 == k) e r (bool_ne_true he)]
        exact ih
    | false =>
      have he : (e.1 == k) = false := by
        cases hek : (e.1 == k) with
        | false => rfl
        | true =>
          rw [beq_iff_eq] at hek
          rw [hek] at hc
          rw [hc] at hk
          cases hk
      rw [selectIn, @List.filter_cons_of_neg _ (fun e => ks.contains e.1) e r
        (bool_ne_true hc),
        @List.find?_cons_of_neg _ (fun e => e.1 == k) e r (bool_ne_true he)]
      exact ih

theorem keysNodup_selectIn {t : Table} (hn : keysNodup t) (ks : List String) :
    keysNodup (selectIn t ks) :=
  List.Nodup.sublist (List.Sublist.map Prod.fst (List.filter_sublist t)) hn

theorem jsMapGet_selectIn {t : Table} (hn : keysNodup t) {ks : List String}
    {k : String} (hk : k ∈ ks) :
    jsMapGet (selectIn t ks) k = lookupT t k := by
  rw [jsMapGet_eq_lookup (keysNodup_selectIn hn ks), lookupT,
    find?_selectIn t ks k (by simpa using hk), lookupT]

/-! ### Keyset pagination lemmas -/

/-- All rows matching the iterator's pattern, in id order: the reference
answer the iterator must produce. -/
def matchRows (t : Table) (pat : String) : Table :=
  sortById (t.filter fun e => likeM pat e.1)

/-- The matching rows strictly beyond the cursor, in id order. -/
def remRows (t : Table) (pat : String) (cur : Option String) : Table :=
  (matchRows t pat).filter fun e => cursorLt cur e.1

theorem strLt_self_false (a : String) : strLt a a = false := by
  cases h : strLt a a
  · rfl
  · exact (strLt_irrefl a h).elim

theorem lastId_mem {l : Table} (hl : l ≠ []) :
    ((l.getLast?).getD ("", "")) ∈ l := by
  rw [List.getLast?_eq_getLast l hl]
  exact List.getLast_mem hl

theorem lastId_cons {e : String × String} {u : Table} (hu : u ≠ []) :
    lastId (e :: u) = lastId u := by
  cases u with
  | nil => exact absurd rfl hu
  | cons f v => rw [lastId, lastId, List.getLast?_cons_cons]

theorem keysNodup_filter {t : Table} (hn : keysNodup t)
    (p : String × String → Bool) : keysNodup (t.filter p) :=
  List.Nodup.sublist (List.Sublist.map Prod.fst (List.filter_sublist t)) hn

theorem strict_sortById {u : Table} (hn : keysNodup u) :
    StrictByIds (sortById u) :=
  strictByIds_of_sorted_nodup (sortedByIds_sortById u)
    (keysNodup_of_perm (sortById_perm u) hn)

theorem eq_of_perm_of_strict {u v : Table} (hperm : u.Perm v)
    (hu : StrictByIds u) (hv : StrictByIds v) : u = v := by
  haveI : IsAntisymm (String × String) fun e f => strLt e.1 f.1 = true :=
    ⟨fun a b h1 h2 => (strLt_asymm h1 h2).elim⟩
  exact List.eq_of_perm_of_sorted hperm hu hv

theorem strict_matchRows {t : Table} (hn : keysNodup t) (pat : String) :
    StrictByIds (matchRows t pat) :=
  strict_sortById (keysNodup_filter hn _)

theorem strict_remRows {t : Table} (hn : keysNodup t) (pat : String)
    (cur : Option String) : StrictByIds (remRows t pat cur) :=
  List.Pairwise.filter _ (strict_matchRows hn pat)

theorem remRows_none (t : Table) (pat : String) :
    remRows t pat none = matchRows t pat :=
  List.filter_eq_self.mpr fun _ _ => rfl

/-- The iterator's batch query returns the first `n` not-yet-seen matching
rows in id order. -/
theorem selectBatch_eq {t : Table} (hn : keysNodup t) (pat : String)
    (cur : Option String) (n : Nat) :
    selectBatch t pat cur n = (remRows t pat cur).take n := by
  rw [selectBatch, remRows, matchRows]
  congr 1
  have h1 : (sortById (t.filter fun e => likeM pat e.1 && cursorLt cur e.1)).Perm
      (t.filter fun e => likeM pat e.1 && cursorLt cur e.1) := sortById_perm _
  have h2 : (((sortById (t.filter fun e => likeM pat e.1)).filter
        fun e => cursorLt cur e.1)).Perm
      ((t.filter fun e => likeM pat e.1).filter fun e => cursorLt cur e.1) :=
    List.Perm.filter _ (sortById_perm _)
  have h3 : ((t.filter fun e => likeM pat e.1).filter fun e => cursorLt cur e.1) =
      t.filter fun e => likeM pat e.1 && cursorLt cur e.1 := by
    rw [List.filter_filter]
    apply List.filter_congr
    intro e _
    exact Bool.and_comm _ _
  rw [h3] at h2
  refine eq_of_perm_of_strict (h1.trans h2.symm) ?_ ?_
  · exact strict_sortById (keysNodup_filter hn _)
  · exact List.Pairwise.filter _ (strict_sortById (keysNodup_filter hn _))

/-- In a strictly id-sorted list, the rows beyond the last id of the first
`n` rows are exactly the rows after position `n`. -/
theorem strict_filter_lastId_take :
    ∀ {s : Table}, StrictByIds s → ∀ {n : Nat}, 1 ≤ n → n ≤ s.length →
      (s.filter fun e => strLt (lastId (s.take n)) e.1) = s.drop n := by
  intro s
  induction s with
  | nil =>
    intro _ n h1 h2
    rw [List.length_nil] at h2
    omega
  | cons e s' ih =>
    intro hs n h1 h2
    rw [StrictByIds, List.pairwise_cons] at hs
    cases n with
    | zero => omega
    | succ m =>
      cases m with
      | zero =>
        have htake : (e :: s').take 1 = [e] := rfl
        rw [htake]
        have hlast : lastId [e] = e.1 := rfl
        rw [hlast, @List.filter_cons_of_neg _ (fun f => strLt e.1 f.1) e s'
          (bool_ne_true (strLt_self_false e.1))]
        rw [List.filter_eq_self.mpr fun f hf => hs.1 f hf]
        rfl
      | succ m' =>
        have hm1 : m' + 1 ≤ s'.length := by
          rw [List.length_cons] at h2
          omega
        have hs'ne : s'.take (m' + 1) ≠ [] := by
          have hlen : (s'.take (m' + 1)).length = m' + 1 := by
            rw [List.length_take]
            omega
          intro hnil
          rw [hnil] at hlen
          simp at hlen
        have htake : (e :: s').take (m' + 2) = e :: s'.take (m' + 1) := rfl
        rw [htake, lastId_cons hs'ne]
        have hxmem : ((s'.take (m' + 1)).getLast?.getD ("", "")) ∈ s' :=
          List.take_subset _ _ (lastId_mem hs'ne)
        have hec : strLt e.1 (lastId (s'.take (m' + 1))) = true := hs.1 _ hxmem
        rw [@List.filter_cons_of_neg _
          (fun f => strLt (lastId (s'.take (m' + 1))) f.1) e s'
          (bool_ne_true (not_strLt_of_strLt hec))]
        exact ih hs.2 (by omega) hm1

/-- Advancing the cursor to the last id of the current batch leaves
exactly the rows after that batch. -/
theorem remRows_lastId {t : Table} (hn : keysNodup t) (pat : String)
    (cur : Option String) {n : Nat} (h1 : 1 ≤ n)
    (h2 : n ≤ (remRows t pat cur).length) :
    remRows t pat (some (lastId ((remRows t pat cur).take n))) =
      (remRows t pat cur).drop n := by
  have hne : (remRows t pat cur).take n ≠ [] := by
    have hlen : ((remRows t pat cur).take n).length = n := by
      rw [List.length_take]
      omega
    intro hnil
    rw [hnil] at hlen
    rw [List.length_nil] at hlen
    omega
  have hxmem : (((remRows t pat cur).take n).getLast?.getD ("", "")) ∈
      remRows t pat cur :=
    List.take_subset _ _ (lastId_mem hne)
  have hcur : cursorLt cur (lastId ((remRows t pat cur).take n)) = true :=
    (List.mem_filter.mp hxmem).2
  have key : ∀ c : String, cursorLt cur c = true →
      remRows t pat (some c) =
        (remRows t pat cur).filter fun e => strLt c e.1 := by
    intro c hc
    rw [remRows, remRows, List.filter_filter]
    apply List.filter_congr
    intro e _
    show cursorLt (some c) e.1 = (strLt c e.1 && cursorLt cur e.1)
    rw [show cursorLt (some c) e.1 = strLt c e.1 from rfl]
    cases hlt : strLt c e.1 with
    | false => exact (Bool.false_and _).symm
    | true =>
      have hce : cursorLt cur e.1 = true := by
        cases cur with
        | none => rfl
        | some c0 => exact strLt_trans hc hlt
      rw [hce]
      rfl
  rw [key (lastId ((remRows t pat cur).take n)) hcur,
    strict_filter_lastId_take (strict_remRows hn pat cur) h1 h2]

/-- `_exec` on a ready, connected adapter forwards the statement to the
table. -/
theorem execTable_conn {α : Type} (t : Table) (ns : Option String)
    (cfg : LimitConfig) (f : Table → α × Table) :
    execTable (connAdapter t ns cfg) f = (.ok (f t).1, connAdapter (f t).2 ns cfg) :=
  rfl

theorem iterLoop_succ (a : Adapter) (pat : String) (limit : Int)
    (cur : Option String) (fuel : Nat) :
    iterLoop a pat limit cur (fuel + 1) =
      match execTable a fun t => (selectBatch t pat cur limit.toNat, t) with
      | (.error e, _) => (.error e, [Stmt.batchStmt pat cur limit])
      | (.ok entries, _) =>
        if entries.isEmpty then (.ok [], [Stmt.batchStmt pat cur limit])
        else if (entries.length : Int) < limit then
          (.ok entries, [Stmt.batchStmt pat cur limit])
        else
          match iterLoop a pat limit (some (lastId entries)) fuel with
          | (.error e, tr) => (.error e, Stmt.batchStmt pat cur limit :: tr)
          | (.ok rest, tr) =>
            (.ok (entries ++ rest), Stmt.batchStmt pat cur limit :: tr) :=
  rfl

theorem iterLoop_conn_succ (t : Table) (ns : Option String) (cfg : LimitConfig)
    (pat : String) (limit : Int) (cur : Option String) (fuel : Nat) :
    iterLoop (connAdapter t ns cfg) pat limit cur (fuel + 1) =
      if (selectBatch t pat cur limit.toNat).isEmpty then
        (.ok [], [Stmt.batchStmt pat cur limit])
      else if ((selectBatch t pat cur limit.toNat).length : Int) < limit then
        (.ok (selectBatch t pat cur limit.toNat), [Stmt.batchStmt pat cur limit])
      else
        match iterLoop (connAdapter t ns cfg) pat limit
            (some (lastId (selectBatch t pat cur limit.toNat))) fuel with
        | (.error e, tr) => (.error e, Stmt.batchStmt pat cur limit :: tr)
        | (.ok rest, tr) =>
          (.ok (selectBatch t pat cur limit.toNat ++ rest),
            Stmt.batchStmt pat cur limit :: tr) :=
  rfl

/-- The fetch loop on a ready, connected adapter returns exactly the
not-yet-seen matching rows, in id order, for any fuel beyond their
count. -/
theorem iterLoop_run {t : Table} (hn : keysNodup t) (ns : Option String)
    (cfg : LimitConfig) (pat : String) {limit : Int} (hl : 1 ≤ limit) :
    ∀ (fuel : Nat) (cur : Option String),
      (remRows t pat cur).length < fuel →
      (iterLoop (connAdapter t ns cfg) pat limit cur fuel).1 =
        .ok (remRows t pat cur) := by
  intro fuel
  induction fuel with
  | zero =>
    intro cur h
    omega
  | succ fuel ih =>
    intro cur h
    rw [iterLoop_conn_succ, selectBatch_eq hn pat cur limit.toNat]
    have hn1 : 1 ≤ limit.toNat := by omega
    cases hrem : remRows t pat cur with
    | nil =>
      rw [List.take_nil]
      rfl
    | cons x rem' =>
      rw [← hrem]
      by_cases hlen : (remRows t pat cur).length < limit.toNat
      · have htake : (remRows t pat cur).take limit.toNat = remRows t pat cur :=
          List.take_of_length_le (by omega)
        rw [htake]
        have hemp : (remRows t pat cur).isEmpty = false := by
          rw [hrem]
          rfl
        have hcond : ((remRows t pat cur).length : Int) < limit := by omega
        rw [hemp, if_neg Bool.false_ne_true, if_pos hcond]
      · have hlen' : limit.toNat ≤ (remRows t pat cur).length := by omega
        have hlentake : ((remRows t pat cur).take limit.toNat).length =
            limit.toNat := by
          rw [List.length_take]
          omega
        obtain ⟨m, hm⟩ : ∃ m, limit.toNat = m + 1 := ⟨limit.toNat - 1, by omega⟩
        have hemp : ((remRows t pat cur).take limit.toNat).isEmpty = false := by
          rw [hrem, hm, List.take_succ_cons]
          rfl
        have hcond : ¬(((remRows t pat cur).take limit.toNat).length : Int) <
            limit := by
          rw [hlentake]
          omega
        rw [hemp, if_neg Bool.false_ne_true, if_neg hcond]
        have hdrop := remRows_lastId hn pat cur hn1 hlen'
        have hrec := ih (some (lastId ((remRows t pat cur).take limit.toNat)))
          (by rw [hdrop, List.length_drop]; omega)
        cases hres : iterLoop (connAdapter t ns cfg) pat limit
            (some (lastId ((remRows t pat cur).take limit.toNat))) fuel with
        | mk r tr =>
          rw [hres] at hrec
          have hr : r = .ok (remRows t pat
              (some (lastId ((remRows t pat cur).take limit.toNat)))) := hrec
          subst hr
          show Except.ok ((remRows t pat cur).take limit.toNat ++
            remRows t pat (some (lastId ((remRows t pat cur).take limit.toNat)))) =
            Except.ok (remRows t pat cur)
          rw [hdrop, List.take_append_drop]

/-! ### Evaluation of the operations on a connected adapter -/

theorem get_conn (t : Table) (ns : Option String) (cfg : LimitConfig)
    (key : String) :
    get (connAdapter t ns cfg) key =
      (.ok (selectValueEq t key).head?, connAdapter t ns cfg,
        [Stmt.selectValueEq key]) :=
  rfl

theorem set_conn (t : Table) (ns : Option String) (cfg : LimitConfig)
    (key value : String) :
    set (connAdapter t ns cfg) key value =
      (.ok (), connAdapter (upsertRow t key value) ns cfg,
        [Stmt.upsertStmt key value]) :=
  rfl

theorem delete_conn (t : Table) (ns : Option String) (cfg : LimitConfig)
    (key : String) :
    delete (connAdapter t ns cfg) key =
      if countEq t key = 0 then
        (.ok false, connAdapter t ns cfg, [Stmt.countEqStmt key])
      else
        (.ok true, connAdapter (deleteEq t key) ns cfg,
          [Stmt.countEqStmt key, Stmt.deleteEqStmt key]) :=
  rfl

theorem clear_conn (t : Table) (ns : Option String) (cfg : LimitConfig) :
    clear (connAdapter t ns cfg) =
      (.ok (), connAdapter (deleteLike t (clearPattern ns)) ns cfg,
        [Stmt.deleteLikeStmt (clearPattern ns)]) :=
  rfl

theorem getMany_conn (t : Table) (ns : Option String) (cfg : LimitConfig)
    (keys : List String) :
    getMany (connAdapter t ns cfg) keys =
      if keys.isEmpty then (.ok [], connAdapter t ns cfg, [])
      else
        (.ok (keys.map fun k => jsMapGet (selectIn t keys) k),
          connAdapter t ns cfg, [Stmt.selectManyIn keys]) :=
  rfl

theorem deleteMany_conn (t : Table) (ns : Option String) (cfg : LimitConfig)
    (keys : List String) :
    deleteMany (connAdapter t ns cfg) keys =
      if keys.isEmpty then (.ok false, connAdapter t ns cfg, [])
      else if countIn t keys = 0 then
        (.ok false, connAdapter t ns cfg, [Stmt.countInStmt keys])
      else
        (.ok true, connAdapter (deleteIn t keys) ns cfg,
          [Stmt.countInStmt keys, Stmt.deleteInStmt keys]) :=
  rfl

theorem disconnect_conn_none (a : Adapter) : (disconnect a).2.conn = none := by
  cases h : a.conn <;> simp [disconnect, h]

theorem disconnect_ready (a : Adapter) : (disconnect a).2.ready = a.ready := by
  cases h : a.conn <;> simp [disconnect, h]

/-- `_exec` on an adapter whose handle has been cleared rejects with
`Connection not established`. -/
theorem execTable_disconnected {α : Type} (a : Adapter)
    (h1 : a.ready = Except.ok ()) (h2 : a.conn = none)
    (f : Table → α × Table) : execTable a f = (.error .notConnected, a) := by
  simp [execTable, h1, h2]

/-! ### The claims -/

/-- C1, counterexample: construct an adapter whose one-time initialization
failed (`connect` rejected) with an `error` listener attached, as Keyv
attaches one.  `getMany []` then succeeds — it neither awaits the
readiness future nor fails — and `get` does not surface the readiness
failure (`connectError`); it proceeds past the await into the raw executor
and fails there at the driver level instead. -/
theorem C1_counterexample :
    (getMany (mkAdapter true .connectFail [] true none (.num 10)) []).1 =
        .ok [] ∧
      (get (mkAdapter true .connectFail [] true none (.num 10)) "k").1 ≠
        .error .connectError := by
  decide

/-- C1, amended: every SQL-issuing operation awaits the readiness future,
but the constructor's `catch` handler converts an init failure into an
`error` event.  With an `error` listener attached (as Keyv attaches one)
the future fulfills, so each of `get`, `set`, `delete`, `clear`, `has`,
the non-empty batch operations, `setMany` and the iterator proceeds past
the await to the raw executor and fails there at the driver level rather
than with the init failure; only with no listener does `emit('error')`
throw inside the `catch` handler, making the future reject so that each
of those operations propagates the init failure.  The empty-input fast
paths of `getMany`/`hasMany`/`deleteMany`/`setMany` return successfully
without awaiting readiness in either configuration. -/
theorem C1_readiness_after_failed_init (t0 : Table) (k v : String)
    (keys : List String) (entries : List (String × String))
    (ns ns' : Option String) (cfg : LimitConfig) (fuel : Nat)
    (hk : keys ≠ []) (he : entries ≠ []) (hf : 1 ≤ fuel) :
    (mkAdapter true .connectFail t0 true ns cfg).ready = .ok () ∧
      (mkAdapter true .connectFail t0 true ns cfg).emitted = [.connectError] ∧
      (mkAdapter true .connectFail t0 false ns cfg).ready =
        .error .connectError ∧
      (get (mkAdapter true .connectFail t0 true ns cfg) k).1 =
        .error .execFailed ∧
      (set (mkAdapter true .connectFail t0 true ns cfg) k v).1 =
        .error .execFailed ∧
      (delete (mkAdapter true .connectFail t0 true ns cfg) k).1 =
        .error .execFailed ∧
      (clear (mkAdapter true .connectFail t0 true ns cfg)).1 =
        .error .execFailed ∧
      (has (mkAdapter true .connectFail t0 true ns cfg) k).1 =
        .error .execFailed ∧
      (getMany (mkAdapter true .connectFail t0 true ns cfg) keys).1 =
        .error .execFailed ∧
      (hasMany (mkAdapter true .connectFail t0 true ns cfg) keys).1 =
        .error .execFailed ∧
      (deleteMany (mkAdapter true .connectFail t0 true ns cfg) keys).1 =
        .error .execFailed ∧
      (setMany (mkAdapter true .connectFail t0 true ns cfg) entries).1 =
        .error .execFailed ∧
      (iterator (mkAdapter true .connectFail t0 true ns cfg) ns' fuel).1 =
        .error .execFailed ∧
      (get (mkAdapter true .connectFail t0 false ns cfg) k).1 =
        .error .connectError ∧
      (set (mkAdapter true .connectFail t0 false ns cfg) k v).1 =
        .error .connectError ∧
      (delete (mkAdapter true .connectFail t0 false ns cfg) k).1 =
        .error .connectError ∧
      (clear (mkAdapter true .connectFail t0 false ns cfg)).1 =
        .error .connectError ∧
      (has (mkAdapter true .connectFail t0 false ns cfg) k).1 =
        .error .connectError ∧
      (getMany (mkAdapter true .connectFail t0 false ns cfg) keys).1 =
        .error .connectError ∧
      (hasMany (mkAdapter true .connectFail t0 false ns cfg) keys).1 =
        .error .connectError ∧
      (deleteMany (mkAdapter true .connectFail t0 false ns cfg) keys).1 =
        .error .connectError ∧
      (setMany (mkAdapter true .connectFail t0 false ns cfg) entries).1 =
        .error .connectError ∧
      (iterator (mkAdapter true .connectFail t0 false ns cfg) ns' fuel).1 =
        .error .connectError ∧
      (getMany (mkAdapter true .connectFail t0 true ns cfg) []).1 = .ok [] ∧
      (hasMany (mkAdapter true .connectFail t0 true ns cfg) []).1 = .ok [] ∧
      (deleteMany (mkAdapter true .connectFail t0 true ns cfg) []).1 =
        .ok false ∧
      (setMany (mkAdapter true .connectFail t0 true ns cfg) []).1 = .ok () ∧
      (getMany (mkAdapter true .connectFail t0 false ns cfg) []).1 = .ok [] ∧
      (hasMany (mkAdapter true .connectFail t0 false ns cfg) []).1 = .ok [] ∧
      (deleteMany (mkAdapter true .connectFail t0 false ns cfg) []).1 =
        .ok false ∧
      (setMany (mkAdapter true .connectFail t0 false ns cfg) []).1 = .ok () := by
  have hexL : ∀ {α : Type} (f : Table → α × Table),
      execTable (mkAdapter true .connectFail t0 true ns cfg) f =
        (.error .execFailed, mkAdapter true .connectFail t0 true ns cfg) :=
    fun _ => rfl
  have hexN : ∀ {α : Type} (f : Table → α × Table),
      execTable (mkAdapter true .connectFail t0 false ns cfg) f =
        (.error .connectError, mkAdapter true .connectFail t0 false ns cfg) :=
    fun _ => rfl
  have hkeys : keys.isEmpty = false := by
    cases keys with
    | nil => exact absurd rfl hk
    | cons x xs => rfl
  refine ⟨rfl, rfl, rfl, rfl, rfl, rfl, rfl, rfl, ?_, ?_, ?_, ?_, ?_,
    rfl, rfl, rfl, rfl, rfl, ?_, ?_, ?_, ?_, ?_,
    rfl, rfl, rfl, rfl, rfl, rfl, rfl, rfl⟩
  · rw [getMany, hkeys, if_neg Bool.false_ne_true, hexL]
  · rw [hasMany, hkeys, if_neg Bool.false_ne_true, hexL]
  · rw [deleteMany, hkeys, if_neg Bool.false_ne_true, hexL]
  · cases entries with
    | nil => exact absurd rfl he
    | cons e rest =>
      cases e with
      | mk k0 v0 => rw [setMany, hexL]
  · cases fuel with
    | zero => omega
    | succ f =>
      simp only [iterator.eq_def]
      rw [iterLoop_succ, hexL]
  · rw [getMany, hkeys, if_neg Bool.false_ne_true, hexN]
  · rw [hasMany, hkeys, if_neg Bool.false_ne_true, hexN]
  · rw [deleteMany, hkeys, if_neg Bool.false_ne_true, hexN]
  · cases entries with
    | nil => exact absurd rfl he
    | cons e rest =>
      cases e with
      | mk k0 v0 => rw [setMany, hexN]
  · cases fuel with
    | zero => omega
    | succ f =>
      simp only [iterator.eq_def]
      rw [iterLoop_succ, hexN]

/-- Witness for C1 at a concrete failed-init adapter: a non-empty
`getMany` fails at the driver level with a listener attached, `get`
propagates the init failure with no listener, and the `setMany` fast
path succeeds. -/
theorem C1_readiness_witness :
    (["a"] : List String) ≠ [] ∧
      (getMany (mkAdapter true .connectFail [] true none (.num 10)) ["a"]).1 =
        .error .execFailed ∧
      (get (mkAdapter true .connectFail [] false none (.num 10)) "k").1 =
        .error .connectError ∧
      (setMany (mkAdapter true .connectFail [] true none (.num 10)) []).1 =
        .ok () := by
  have h := C1_readiness_after_failed_init [] "k" "v" ["a"] [("a", "1")]
    none none (.num 10) 1 (by decide) (by decide) (by decide)
  obtain ⟨-, -, -, -, -, -, -, -, h9, -, -, -, -, h14, -, -, -, -, -, -, -, -,
    -, -, -, -, h27, -⟩ := h
  exact ⟨by decide, h9, h14, h27⟩

/-- C5, counterexample: after `disconnect()`, `getMany []` still succeeds
with the empty result — not every subsequently invoked operation fails. -/
theorem C5_counterexample :
    (getMany (disconnect (connAdapter [("a", "1")] none (.num 10))).2 []).1 =
      .ok [] := by
  decide

/-- C5, amended: after `disconnect()` on an adapter whose initialization
succeeded, the handle is cleared and every subsequently invoked operation
that issues SQL — `get`, `set`, `delete`, `clear`, `has`, the batch
operations on non-empty input, and the iterator — fails with the
`Connection not established` error rather than reconnecting; the
empty-input fast paths of `getMany`/`hasMany`/`deleteMany`/`setMany`
still return their trivial results successfully. -/
theorem C5_disconnect_fails_fast (a : Adapter) (hready : a.ready = .ok ())
    (k v : String) (keys : List String) (entries : List (String × String))
    (ns : Option String) (fuel : Nat)
    (hk : keys ≠ []) (he : entries ≠ []) (hf : 1 ≤ fuel) :
    (disconnect a).2.conn = none ∧
      (get (disconnect a).2 k).1 = .error .notConnected ∧
      (set (disconnect a).2 k v).1 = .error .notConnected ∧
      (delete (disconnect a).2 k).1 = .error .notConnected ∧
      (clear (disconnect a).2).1 = .error .notConnected ∧
      (has (disconnect a).2 k).1 = .error .notConnected ∧
      (getMany (disconnect a).2 keys).1 = .error .notConnected ∧
      (hasMany (disconnect a).2 keys).1 = .error .notConnected ∧
      (deleteMany (disconnect a).2 keys).1 = .error .notConnected ∧
      (setMany (disconnect a).2 entries).1 = .error .notConnected ∧
      (iterator (disconnect a).2 ns fuel).1 = .error .notConnected := by
  have h1 : (disconnect a).2.ready = Except.ok () := by
    rw [disconnect_ready, hready]
  have h2 : (disconnect a).2.conn = none := disconnect_conn_none a
  have hex : ∀ {α : Type} (f : Table → α × Table),
      execTable (disconnect a).2 f = (.error .notConnected, (disconnect a).2) :=
    fun f => execTable_disconnected _ h1 h2 f
  have hkeys : keys.isEmpty = false := by
    cases keys with
    | nil => exact absurd rfl hk
    | cons x xs => rfl
  refine ⟨h2, ?_, ?_, ?_, ?_, ?_, ?_, ?_, ?_, ?_, ?_⟩
  · rw [get, hex]
  · rw [set, hex]
  · rw [delete, hex]
  · rw [clear, hex]
  · rw [has, hex]
  · rw [getMany, hkeys, if_neg Bool.false_ne_true, hex]
  · rw [hasMany, hkeys, if_neg Bool.false_ne_true, hex]
  · rw [deleteMany, hkeys, if_neg Bool.false_ne_true, hex]
  · cases entries with
    | nil => exact absurd rfl he
    | cons e rest =>
      cases e with
      | mk k0 v0 => rw [setMany, hex]
  · cases fuel with
    | zero => omega
    | succ f =>
      simp only [iterator.eq_def]
      rw [iterLoop_succ, hex]

/-- Witness for C5 at a concrete adapter. -/
theorem C5_disconnect_witness :
    (connAdapter [("a", "1")] none (.num 10)).ready = Except.ok () ∧
      (get (disconnect (connAdapter [("a", "1")] none (.num 10))).2 "a").1 =
        .error .notConnected :=
  ⟨rfl,
    (C5_disconnect_fails_fast (connAdapter [("a", "1")] none (.num 10)) rfl
      "a" "v" ["a"] [("a", "1")] none 1 (by decide) (by decide)
      (by decide)).2.1⟩

/-- C10: on any adapter state, `deleteMany` of the empty key list returns
`false` and `hasMany` of the empty key list returns the empty list,
immediately, leaving the state unchanged and issuing no SQL statement. -/
theorem C10_empty_input_fast_paths (a : Adapter) :
    deleteMany a [] = (.ok false, a, []) ∧ hasMany a [] = (.ok [], a, []) :=
  ⟨rfl, rfl⟩

/-- C3: on a connected adapter over a table with unique ids, `set` issues
exactly one UPSERT statement (no existence check); `set k v` then `get k`
returns `v`; `set k v` then `set k v2` then `get k` returns `v2`; and
after the two writes the table holds exactly one row with id `k` — the
second write replaced the row instead of duplicating it. -/
theorem C3_set_get_roundtrip (t : Table) (ns : Option String)
    (cfg : LimitConfig) (k v v2 : String) (hn : keysNodup t) :
    (set (connAdapter t ns cfg) k v).2.2 = [Stmt.upsertStmt k v] ∧
      (get (set (connAdapter t ns cfg) k v).2.1 k).1 = .ok (some v) ∧
      (get (set (set (connAdapter t ns cfg) k v).2.1 k v2).2.1 k).1 =
        .ok (some v2) ∧
      countEq (tableOf (set (set (connAdapter t ns cfg) k v).2.1 k v2).2.1) k
        = 1 := by
  refine ⟨rfl, ?_, ?_, ?_⟩
  · show Except.ok (selectValueEq (upsertRow t k v) k).head? =
      Except.ok (some v)
    rw [upsert_get]
  · show Except.ok
      (selectValueEq (upsertRow (upsertRow t k v) k v2) k).head? =
      Except.ok (some v2)
    rw [upsert_get]
  · show countEq (upsertRow (upsertRow t k v) k v2) k = 1
    exact countEq_upsert (keysNodup_upsert hn k v) k v2

/-- Witness for C3 at a concrete table. -/
theorem C3_set_get_roundtrip_witness :
    keysNodup ([("other", "x")] : Table) ∧
      (get (set (connAdapter [("other", "x")] none (.num 10)) "a" "1").2.1
        "a").1 = .ok (some "1") :=
  ⟨by decide,
    (C3_set_get_roundtrip [("other", "x")] none (.num 10) "a" "1" "2"
      (by decide)).2.1⟩

/-- C4: on a connected adapter, `delete k` returns `true` exactly when a
row with id `k` existed before the call (the COUNT check); on a zero
count it returns `false`, issues no DELETE, and leaves the table
unchanged; on a positive count it issues the COUNT and then the DELETE;
and a `get k` after the call finds nothing. -/
theorem C4_delete_reports_existence (t : Table) (ns : Option String)
    (cfg : LimitConfig) (k : String) :
    (delete (connAdapter t ns cfg) k).1 = .ok (decide (0 < countEq t k)) ∧
      (0 < countEq t k ↔ k ∈ t.map Prod.fst) ∧
      tableOf (delete (connAdapter t ns cfg) k).2.1 =
        (if 0 < countEq t k then deleteEq t k else t) ∧
      (delete (connAdapter t ns cfg) k).2.2 =
        (if 0 < countEq t k then [Stmt.countEqStmt k, Stmt.deleteEqStmt k]
         else [Stmt.countEqStmt k]) ∧
      (get (delete (connAdapter t ns cfg) k).2.1 k).1 = .ok none := by
  by_cases hz : countEq t k = 0
  · have hpos : ¬0 < countEq t k := by omega
    have hsel : selectValueEq t k = [] := by
      rw [selectValueEq]
      rw [countEq, List.length_eq_zero] at hz
      rw [hz]
      rfl
    rw [delete_conn, if_pos hz]
    refine ⟨?_, countEq_pos_iff t k, ?_, ?_, ?_⟩
    · simp [hpos]
    · rw [if_neg hpos]
      rfl
    · rw [if_neg hpos]
    · show Except.ok (selectValueEq t k).head? = Except.ok none
      rw [hsel]
      rfl
  · have hpos : 0 < countEq t k := by omega
    rw [delete_conn, if_neg hz]
    refine ⟨?_, countEq_pos_iff t k, ?_, ?_, ?_⟩
    · simp [hpos]
    · rw [if_pos hpos]
      rfl
    · rw [if_pos hpos]
    · show Except.ok (selectValueEq (deleteEq t k) k).head? = Except.ok none
      rw [selectValueEq_deleteEq]
      rfl

/-- C7: on a connected adapter over a table with unique ids, `getMany`
returns one entry per input key, in input order — the stored value where
the key exists, the not-found placeholder where it does not — issuing a
single `IN (...)` select, and the empty input issues no SQL at all. -/
theorem C7_getMany_preserves_order (t : Table) (ns : Option String)
    (cfg : LimitConfig) (keys : List String) (hn : keysNodup t) :
    getMany (connAdapter t ns cfg) keys =
      (.ok (keys.map fun k => lookupT t k), connAdapter t ns cfg,
        if keys.isEmpty then [] else [Stmt.selectManyIn keys]) ∧
      (keys.map fun k => lookupT t k).length = keys.length := by
  refine ⟨?_, List.length_map _ _⟩
  cases keys with
  | nil => rfl
  | cons k ks =>
    rw [getMany_conn]
    rw [show ((k :: ks).isEmpty) = false from rfl, if_neg Bool.false_ne_true,
      if_neg Bool.false_ne_true]
    have hmap : ((k :: ks).map fun x => jsMapGet (selectIn t (k :: ks)) x) =
        (k :: ks).map fun x => lookupT t x :=
      List.map_congr_left fun x hx => jsMapGet_selectIn hn hx
    rw [hmap]

/-- Witness for C7 at a concrete table and key list. -/
theorem C7_getMany_witness :
    keysNodup ([("k1", "v1"), ("k2", "v2")] : Table) ∧
      getMany (connAdapter [("k1", "v1"), ("k2", "v2")] none (.num 10))
          ["k1", "k2", "k3"] =
        (.ok [some "v1", some "v2", none],
          connAdapter [("k1", "v1"), ("k2", "v2")] none (.num 10),
          [Stmt.selectManyIn ["k1", "k2", "k3"]]) := by
  refine ⟨by decide, ?_⟩
  have h := (C7_getMany_preserves_order [("k1", "v1"), ("k2", "v2")] none
    (.num 10) ["k1", "k2", "k3"] (by decide)).1
  rw [h]
  decide

/-- C8: on a connected adapter, `deleteMany` over a non-empty key list
issues one COUNT over the whole key set and returns `true` exactly when
at least one of the keys existed at check time; on a zero count it
returns `false` without issuing a DELETE and leaves the table unchanged;
otherwise it issues one blind `DELETE ... IN (...)` covering all keys. -/
theorem C8_deleteMany_any_existed (t : Table) (ns : Option String)
    (cfg : LimitConfig) (keys : List String) (hk : keys ≠ []) :
    (deleteMany (connAdapter t ns cfg) keys).1 =
        .ok (decide (0 < countIn t keys)) ∧
      (0 < countIn t keys ↔ ∃ k ∈ keys, k ∈ t.map Prod.fst) ∧
      tableOf (deleteMany (connAdapter t ns cfg) keys).2.1 =
        (if 0 < countIn t keys then deleteIn t keys else t) ∧
      (deleteMany (connAdapter t ns cfg) keys).2.2 =
        (if 0 < countIn t keys then
          [Stmt.countInStmt keys, Stmt.deleteInStmt keys]
         else [Stmt.countInStmt keys]) := by
  have hkeys : keys.isEmpty = false := by
    cases keys with
    | nil => exact absurd rfl hk
    | cons x xs => rfl
  rw [deleteMany_conn, hkeys, if_neg Bool.false_ne_true]
  by_cases hz : countIn t keys = 0
  · have hpos : ¬0 < countIn t keys := by omega
    rw [if_pos hz]
    refine ⟨by simp [hpos], countIn_pos_iff t keys, ?_, ?_⟩
    · rw [if_neg hpos]
      rfl
    · rw [if_neg hpos]
  · have hpos : 0 < countIn t keys := by omega
    rw [if_neg hz]
    refine ⟨by simp [hpos], countIn_pos_iff t keys, ?_, ?_⟩
    · rw [if_pos hpos]
      rfl
    · rw [if_pos hpos]

/-- Witness for C8 at a concrete table and key list. -/
theorem C8_deleteMany_witness :
    (["a", "b"] : List String) ≠ [] ∧
      (deleteMany (connAdapter [("a", "1")] none (.num 10)) ["a", "b"]).1 =
        .ok true := by
  refine ⟨by decide, ?_⟩
  have h := (C8_deleteMany_any_existed [("a", "1")] none (.num 10) ["a", "b"]
    (by decide)).1
  rw [h]
  decide

/-- C2: on a connected adapter over a table with unique ids, for any LIKE
pattern, any positive batch limit and any fuel beyond the table size, the
iterator's fetch loop terminates with exactly the matching rows: the
yielded list is the id-sorted list of matching rows, a permutation of the
matching rows (no omission, no duplicate — ids stay unique), and strictly
ascending in id. -/
theorem C2_iterator_keyset_pagination (t : Table) (ns : Option String)
    (cfg : LimitConfig) (pat : String) (limit : Int) (fuel : Nat)
    (hn : keysNodup t) (hl : 1 ≤ limit) (hfuel : t.length < fuel) :
    (iterLoop (connAdapter t ns cfg) pat limit none fuel).1 =
        .ok (matchRows t pat) ∧
      (matchRows t pat).Perm (t.filter fun e => likeM pat e.1) ∧
      StrictByIds (matchRows t pat) ∧
      keysNodup (matchRows t pat) := by
  have hlen : (remRows t pat none).length < fuel := by
    rw [remRows_none]
    have h1 : (matchRows t pat).length =
        (t.filter fun e => likeM pat e.1).length :=
      (sortById_perm _).length_eq
    have h2 : (t.filter fun e => likeM pat e.1).length ≤ t.length :=
      List.length_filter_le _ _
    omega
  refine ⟨?_, sortById_perm _, strict_matchRows hn pat,
    keysNodup_of_perm (sortById_perm _) (keysNodup_filter hn _)⟩
  rw [← remRows_none t pat]
  exact iterLoop_run hn ns cfg pat hl fuel none hlen

/-- Witness for C2: three rows in a namespace, batch limit 2 — the loop
runs two batches and yields all three entries in order. -/
theorem C2_iterator_witness :
    keysNodup ([("ns:a", "1"), ("ns:b", "2"), ("ns:c", "3")] : Table) ∧
      (iterLoop
          (connAdapter [("ns:a", "1"), ("ns:b", "2"), ("ns:c", "3")] none
            (.num 10)) "ns:%" 2 none 4).1 =
        .ok (matchRows [("ns:a", "1"), ("ns:b", "2"), ("ns:c", "3")] "ns:%") :=
  ⟨by decide,
    (C2_iterator_keyset_pagination [("ns:a", "1"), ("ns:b", "2"), ("ns:c", "3")]
      none (.num 10) "ns:%" 2 4 (by decide) (by decide) (by decide)).1⟩

/-- C6, counterexample: with the empty namespace string, `clear()` treats
the namespace as unset (JS falsiness) and uses the bare `%` pattern: the
row `("x", "1")`, whose id does not match the pattern the claim
prescribes (`escape("") ++ ":%"`), is nevertheless deleted. -/
theorem C6_counterexample :
    tableOf (clear (connAdapter [("x", "1")] (some "") (.num 10))).2.1 = [] ∧
      likeM (escapeLike "" ++ ":%") "x" = false := by
  decide

/-- C6, amended: for every nonempty namespace string, `escapeLike`
prefixes each occurrence of the three LIKE metacharacters with the escape
character, the escaped pattern matches exactly the ids carrying the
namespace-colon lead, and `clear()` deletes exactly those rows — ids of
other namespaces survive even when the namespace contains reserved
characters.  With no namespace, the pattern is `%` and all rows are
deleted; a namespace that is the empty string is treated as unset
(falsy) and likewise clears everything. -/
theorem C6_clear_namespace_scope (t : Table) (ns : String)
    (cfg : LimitConfig) (hns : ns ≠ "") :
    (∀ id : String,
        likeM (escapeLike ns ++ ":%") id = leadsWith (ns.data ++ [':']) id.data) ∧
      clear (connAdapter t (some ns) cfg) =
        (.ok (),
          connAdapter
            (t.filter fun e => !leadsWith (ns.data ++ [':']) e.1.data)
            (some ns) cfg,
          [Stmt.deleteLikeStmt (escapeLike ns ++ ":%")]) ∧
      clear (connAdapter t none cfg) =
        (.ok (), connAdapter [] none cfg, [Stmt.deleteLikeStmt "%"]) := by
  have hpat : clearPattern (some ns) = escapeLike ns ++ ":%" := by
    rw [clearPattern, if_neg hns]
  refine ⟨likeM_nsPattern ns, ?_, ?_⟩
  · rw [clear_conn, hpat]
    have hdel : deleteLike t (escapeLike ns ++ ":%") =
        t.filter fun e => !leadsWith (ns.data ++ [':']) e.1.data := by
      rw [deleteLike]
      apply List.filter_congr
      intro e _
      rw [likeM_nsPattern]
    rw [hdel]
  · rw [clear_conn]
    have hdel : deleteLike t (clearPattern none) = [] := by
      rw [deleteLike, List.filter_eq_nil_iff]
      intro e _
      rw [clearPattern, likeM_percent]
      decide
    rw [hdel]
    rfl

/-- Witness for C6: clearing namespace `a` removes its row and leaves the
row of namespace `b` untouched. -/
theorem C6_clear_witness :
    ("a" : String) ≠ "" ∧
      clear (connAdapter [("a:x", "1"), ("b:y", "2")] (some "a") (.num 10)) =
        (.ok (), connAdapter [("b:y", "2")] (some "a") (.num 10),
          [Stmt.deleteLikeStmt "a:%"]) := by
  refine ⟨by decide, ?_⟩
  have h := (C6_clear_namespace_scope [("a:x", "1"), ("b:y", "2")] "a"
    (.num 10) (by decide)).2.1
  rw [h]
  decide

/-- C9, counterexample: a configured limit of `-5` is numeric and nonzero,
so `parseInt(String(-5), 10) || 10` keeps it: the batch size is `-5`,
not a positive integer, and no fallback applies. -/
theorem C9_counterexample :
    effectiveLimit (.num (-5)) = -5 ∧ ¬0 < effectiveLimit (.num (-5)) := by
  decide

/-- C9, amended: the batch size is `parseInt(String(cfg), 10)` with a
fallback of `10` exactly when that parse yields `NaN` or `0`; in
particular a configured `0`, `NaN`, `undefined` or non-numeric string
falls back to `10`, and the batch size is a positive integer whenever the
configured value does not parse to a negative integer — a negative
configured number is used as-is. -/
theorem C9_limit_parse_fallback (v : LimitConfig) :
    (parseIntJs (jsString v) = none → effectiveLimit v = 10) ∧
      (parseIntJs (jsString v) = some 0 → effectiveLimit v = 10) ∧
      (∀ n : Int, parseIntJs (jsString v) = some n → n ≠ 0 →
        effectiveLimit v = n) ∧
      (∀ n : Int, parseIntJs (jsString v) = some n → 0 ≤ n →
        0 < effectiveLimit v) ∧
      effectiveLimit .nan = 10 ∧ effectiveLimit .undef = 10 ∧
      effectiveLimit (.num 0) = 10 ∧
      effectiveLimit (.str "not a number") = 10 ∧
      effectiveLimit (.num 7) = 7 := by
  refine ⟨?_, ?_, ?_, ?_, by decide, by decide, by decide, by decide, by decide⟩
  · intro h
    rw [effectiveLimit, h]
  · intro h
    rw [effectiveLimit, h]
    rfl
  · intro n h hn
    have he : effectiveLimit v = if n = 0 then 10 else n := by
      rw [effectiveLimit, h]
    rw [he, if_neg hn]
  · intro n h hn0
    have he : effectiveLimit v = if n = 0 then 10 else n := by
      rw [effectiveLimit, h]
    rw [he]
    by_cases h0 : n = 0
    · rw [if_pos h0]
      decide
    · rw [if_neg h0]
      omega

/-- Witness for C9: an invalid (non-numeric) configured value parses to
`NaN` and falls back to the default `10`. -/
theorem C9_limit_witness :
    parseIntJs (jsString (.str "abc")) = none ∧
      effectiveLimit (.str "abc") = 10 :=
  ⟨by decide, (C9_limit_parse_fallback (.str "abc")).1 (by decide)⟩

end KeyvHana
